import Mathlib

/-!
Verification of the energy-monitor client analytics (momonala/energy-monitor).

The JavaScript sources are shallowly embedded: timestamps are integers
(milliseconds or seconds, as in the code), JS numbers carrying data values
are rationals, and JS `null`/`undefined` is `Option.none`.  Each definition
mirrors one function of `src/static/compare.js` (which concatenates the
compare page and the main dashboard script) or of the mobile dashboard
script `src/unnamed/part_001`.
-/

namespace EnergyMonitor

/-- Result record of `computeStatsLocal` (main dashboard).  In the source the
five values are written to the stats panel; `none` renders as a dash. -/
structure StatsResult where
  count : Nat
  avgP : Option ℚ
  maxP : Option ℚ
  minP : Option ℚ
  energyUsed : Option ℚ
deriving DecidableEq, Repr

/-- One raw reading row `{t, p, e}` as served by `/api/readings`. -/
structure Reading where
  t : ℤ
  p : Option ℚ
  e : Option ℚ
deriving DecidableEq, Repr

/-- A millisecond range `{startMs, endMs}`. -/
structure MsRange where
  startMs : ℤ
  endMs : ℤ
deriving DecidableEq, Repr

/-- The `while (xVals[i0] < startSec) i0++` scan of `computeStatsLocal`:
number of leading elements strictly below `startSec`. -/
def scanI0 (startSec : ℤ) : List ℤ → Nat
  | [] => 0
  | t :: rest => if t < startSec then scanI0 startSec rest + 1 else 0

/-- The `while (xVals[i1] > endSec) i1--` scan of `computeStatsLocal`,
expressed on the reversed list: number of trailing elements strictly above
`endSec`. -/
def scanTrailing (endSec : ℤ) : List ℤ → Nat
  | [] => 0
  | t :: rest => if endSec < t then scanTrailing endSec rest + 1 else 0

/-- One trapezoid term of the energy fallback: contributes
`(p[i] + p[i-1]) / 2 * dtSec` when the timestamp advances and both power
samples are present, else `0` (the `if` guard in the source's loop). -/
def trapTerm (a b : ℤ × Option ℚ) : ℚ :=
  match a.2, b.2 with
  | some p0, some p1 => if a.1 < b.1 then (p1 + p0) / 2 * ((b.1 : ℚ) - (a.1 : ℚ)) else 0
  | _, _ => 0

/-- The fallback loop `for (i = i0+1; i <= i1; i++) sumWs += ...` summed over
adjacent pairs of the (time, power) window. -/
def trapSum : List (ℤ × Option ℚ) → ℚ
  | [] => 0
  | [_] => 0
  | a :: b :: rest => trapTerm a b + trapSum (b :: rest)

/-- `count ? Math.min(...ySlice) : null` of `computeStatsLocal`. -/
def listMinQ : List ℚ → Option ℚ
  | [] => none
  | h :: t => some (t.foldl min h)

/-- `count ? Math.max(...ySlice) : null` of `computeStatsLocal`. -/
def listMaxQ : List ℚ → Option ℚ
  | [] => none
  | h :: t => some (t.foldl max h)

/-- `count ? ySlice.reduce((a,b) => a+b, 0) / count : null` of `computeStatsLocal`. -/
def listAvgQ : List ℚ → Option ℚ
  | [] => none
  | h :: t => some ((h :: t).sum / ((h :: t).length : ℚ))

/-- The stats block of `computeStatsLocal` once the index window
`[i0, i0 + cnt - 1]` is fixed: count/avg/min/max of the non-null power slice
and the energy value (endpoint delta, else trapezoid fallback). -/
def statsCore (xVals : List ℤ) (yVals eVals : List (Option ℚ)) (i0 cnt : Nat) : StatsResult :=
  let ySlice := ((yVals.drop i0).take cnt).filterMap id
  let eSlice := ((eVals.drop i0).take cnt).filterMap id
  let energyUsed : Option ℚ :=
    match eSlice.head?, eSlice.getLast? with
    | some eS, some eE => some (eE - eS)
    | _, _ => some (trapSum (((xVals.drop i0).take cnt).zip ((yVals.drop i0).take cnt)) / 3600000)
  ⟨ySlice.length, listAvgQ ySlice, listMaxQ ySlice, listMinQ ySlice, energyUsed⟩

/-- `computeStatsLocal(startMs, endMs)` of the main dashboard script, with the
module state `xVals` (seconds), `yVals` (power W) and `eVals` (cumulative kWh)
passed explicitly.  `none` is the early `return` (no stats update). -/
def computeStatsLocal (xVals : List ℤ) (yVals eVals : List (Option ℚ))
    (startMs endMs : ℤ) : Option StatsResult :=
  let startSec := Int.fdiv startMs 1000
  let endSec := Int.fdiv endMs 1000
  if xVals.length = 0 ∨ endSec ≤ startSec then none
  else
    let i0 := scanI0 startSec xVals
    let i1z : ℤ := (xVals.length : ℤ) - 1 - (scanTrailing endSec xVals.reverse : ℤ)
    if i1z < (i0 : ℤ) then none
    else some (statsCore xVals yVals eVals i0 (i1z.toNat + 1 - i0))

/-- Specification-side window membership: indices whose time (seconds) lies in
the closed window `[startSec, endSec]`. -/
def windowIdx (xVals : List ℤ) (startSec endSec : ℤ) : List Nat :=
  (List.range xVals.length).filter
    (fun i => decide (startSec ≤ xVals.getD i 0) && decide (xVals.getD i 0 ≤ endSec))

/-- Specification-side: the non-null power samples inside the window. -/
def windowPowers (xVals : List ℤ) (yVals : List (Option ℚ)) (startSec endSec : ℤ) : List ℚ :=
  (windowIdx xVals startSec endSec).filterMap (fun i => yVals.getD i none)

/-- Specification-side: the non-null cumulative-energy samples inside the window. -/
def windowEnergies (xVals : List ℤ) (eVals : List (Option ℚ)) (startSec endSec : ℤ) : List ℚ :=
  (windowIdx xVals startSec endSec).filterMap (fun i => eVals.getD i none)

/-- Specification-side trapezoid: `sum((p[i]+p[i-1])/2 * (t[i]-t[i-1]))` over
the window indices, skipping any pair with a null power or a non-advancing
timestamp. -/
def trapSpecSum (xVals : List ℤ) (yVals : List (Option ℚ)) (i0 i1 : Nat) : ℚ :=
  ((List.range' (i0 + 1) (i1 - i0)).map (fun i =>
    trapTerm (xVals.getD (i - 1) 0, yVals.getD (i - 1) none)
             (xVals.getD i 0, yVals.getD i none))).sum

/-- The `rows.map((r) => [r.t, r.p])` step of `fetchReadings`. -/
def mapPower (rows : List Reading) : List (ℤ × Option ℚ) :=
  rows.map (fun r => (r.t, r.p))

/-- The derivation loop of `fetchReadings`: for each adjacent pair `(a, b)`
with both energies non-null and `b.t > a.t`, the point
`[b.t, max(0, (b.e - a.e) * 3.6e9 / (b.t - a.t))]`. -/
def deriveFromEnergy (rows : List Reading) : List (ℤ × ℚ) :=
  (rows.zip rows.tail).filterMap (fun ab =>
    match ab.1.e, ab.2.e with
    | some ea, some eb =>
        if ab.1.t < ab.2.t then
          some (ab.2.t, max 0 ((eb - ea) * 3600000000 / ((ab.2.t : ℚ) - (ab.1.t : ℚ))))
        else none
    | _, _ => none)

/-- The series-mapping part of `fetchReadings`: the raw `[t, p]` pairs are
replaced by the derived series only when every raw power is null and the
derivation produced at least one point (`if (derived.length) mapped = derived`). -/
def fetchReadingsMapped (rows : List Reading) : List (ℤ × Option ℚ) :=
  let mapped := mapPower rows
  if mapped.length ≠ 0 ∧ mapped.all (fun pt => pt.2 = none) then
    let derived := deriveFromEnergy rows
    if derived.length ≠ 0 then derived.map (fun tw => (tw.1, some tw.2)) else mapped
  else mapped

/-- The clamp `Math.max(minMs, Math.min(v, maxMs))` of `applySelectionRange`,
with `minMs`/`maxMs` the first/last loaded time in milliseconds. -/
def clampToSeries (xVals : List ℤ) (v : ℤ) : ℤ :=
  max (xVals.headD 0 * 1000) (min v (xVals.getLastD 0 * 1000))

/-- `applySelectionRange(startMs, endMs)` of the main dashboard with
`clampToData = true`, the module `xVals` (seconds) passed explicitly.
`none` is the early `return` (nothing committed). -/
def applySelectionRange (xVals : List ℤ) (startMs endMs : ℤ) : Option MsRange :=
  if xVals.isEmpty then
    if endMs ≤ startMs then none else some ⟨startMs, endMs⟩
  else
    let maxMs := xVals.getLastD 0 * 1000
    let s := clampToSeries xVals startMs
    let e0 := clampToSeries xVals endMs
    let e := if e0 ≤ s then min maxMs (s + 1) else e0
    if e ≤ s then none else some ⟨s, e⟩

/-- `finalizePointerSelection` of the main dashboard: orders the raw drag
endpoints, widens a zero-width drag by one millisecond, then commits through
`applySelectionRange`. -/
def finalizePointerSelection (xVals : List ℤ) (startMs endMs : ℤ) : Option MsRange :=
  let lo := min startMs endMs
  let hi0 := max startMs endMs
  let hi := if hi0 = lo then lo + 1 else hi0
  applySelectionRange xVals lo hi

/-- `getEndOfTodayMs()`: one millisecond before the start of tomorrow. -/
def getEndOfTodayMs (startOfTomorrowMs : ℤ) : ℤ := startOfTomorrowMs - 1

/-- `trimRangeToToday(range)` of the compare page: caps the end at the last
millisecond of the current local day. -/
def trimRangeToToday (startOfTomorrowMs : ℤ) (range : MsRange) : MsRange :=
  ⟨range.startMs, min range.endMs (getEndOfTodayMs startOfTomorrowMs)⟩

/-- `Math.ceil(a / b)` on integers with `b > 0`. -/
def ceilDivInt (a b : ℤ) : ℤ := -(Int.fdiv (-a) b)

/-- `daysInRange(range)` of the compare page: `Math.ceil((end - start) / 86400000)`. -/
def daysInRange (r : MsRange) : ℤ := ceilDivInt (r.endMs - r.startMs) 86400000

/-- The stats fields of one compared period used by `renderDiff`. -/
structure PeriodStats where
  energy : Option ℚ
  avgPower : Option ℚ
deriving DecidableEq, Repr

/-- All ten diff values computed by `renderDiff`. -/
structure DiffOut where
  diffKwh : Option ℚ
  diffPct : Option ℚ
  diffDailyAvg : Option ℚ
  dailyAvgPct : Option ℚ
  diffPowerAvg : Option ℚ
  powerPct : Option ℚ
  diffCost : Option ℚ
  costPct : Option ℚ
  diffCostPerDay : Option ℚ
  costPerDayPct : Option ℚ
deriving DecidableEq, Repr

/-- The absolute-diff pattern of `renderDiff`:
`x != null && y != null ? y - x : null`. -/
def diffOf (x y : Option ℚ) : Option ℚ :=
  match x, y with
  | some u, some v => some (v - u)
  | _, _ => none

/-- The percent-diff pattern of `renderDiff`:
`base != null && base !== 0 && Number.isFinite(other) ? (other - base) / base * 100 : null`. -/
def pctOf (base other : Option ℚ) : Option ℚ :=
  match base with
  | none => none
  | some u =>
    if u = 0 then none
    else match other with
      | none => none
      | some v => some ((v - u) / u * 100)

/-- The daily-average pattern of `renderDiff`:
`x != null && days != null && days > 0 ? x / days : null`. -/
def perDayOf (x : Option ℚ) (days : ℤ) : Option ℚ :=
  match x with
  | some u => if 0 < days then some (u / (days : ℚ)) else none
  | none => none

/-- `renderDiff(statsA, statsB, rangeA, rangeB)` of the compare page, with the
persisted cost per kWh passed explicitly. -/
def renderDiff (statsA statsB : PeriodStats) (rangeA rangeB : MsRange) (costPerKwh : ℚ) :
    DiffOut :=
  let a := statsA.energy
  let b := statsB.energy
  let diffKwh := diffOf a b
  let diffPct := pctOf a b
  let diffCost := diffKwh.map (· * costPerKwh)
  let daysA := daysInRange rangeA
  let daysB := daysInRange rangeB
  let dailyAvgA := perDayOf a daysA
  let dailyAvgB := perDayOf b daysB
  let diffDailyAvg := diffOf dailyAvgA dailyAvgB
  let dailyAvgPct := pctOf dailyAvgA dailyAvgB
  let avgA := statsA.avgPower
  let avgB := statsB.avgPower
  let diffPowerAvg := diffOf avgA avgB
  let powerPct := pctOf avgA avgB
  let costA := a.map (· * costPerKwh)
  let costB := b.map (· * costPerKwh)
  let costPct := pctOf costA costB
  let avgCostPerDayA := perDayOf costA daysA
  let avgCostPerDayB := perDayOf costB daysB
  let diffCostPerDay := diffOf avgCostPerDayA avgCostPerDayB
  let costPerDayPct := pctOf avgCostPerDayA avgCostPerDayB
  ⟨diffKwh, diffPct, diffDailyAvg, dailyAvgPct, diffPowerAvg, powerPct,
   diffCost, costPct, diffCostPerDay, costPerDayPct⟩

/-- The default `costPerKwh = 0.3102` of the main dashboard. -/
def defaultCostPerKwh : ℚ := 3102 / 10000

/-- The `parseFloat(v) || costPerKwh` pattern: a parse result of `NaN`
(modelled `none`) or `0` is falsy, so the fallback is kept. -/
def jsOrDefault (parsed : Option ℚ) (fallback : ℚ) : ℚ :=
  match parsed with
  | none => fallback
  | some x => if x = 0 then fallback else x

/-- `loadCostFromStorage` of the main dashboard (initial read only).
`stored`: the `localStorage` entry under `cost_per_kwh` — outer `none` means
the key is absent, the inner option is its `parseFloat` result (`none` = NaN).
`inputVal`: likewise for the cost input element's current value, with outer
`none` meaning the element is absent. -/
def loadCostFromStorage (stored : Option (Option ℚ)) (inputVal : Option (Option ℚ)) : ℚ :=
  match stored with
  | some v => jsOrDefault v defaultCostPerKwh
  | none =>
    match inputVal with
    | some iv => jsOrDefault iv defaultCostPerKwh
    | none => defaultCostPerKwh

/-- Which date the next calendar click sets (`step` in `createRangeCalendar`). -/
inductive PickStep where
  | pickStart
  | pickEnd
deriving DecidableEq, Repr

/-- The closure state of `createRangeCalendar`: picked start/end days (as
epoch-day indices, local time) and the click step. -/
structure CalState where
  startDate : Option ℤ
  endDate : Option ℤ
  step : PickStep
deriving DecidableEq, Repr

/-- One day-cell click of `createRangeCalendar`: the first click stores the
start and clears the end; the second stores the end and swaps the two when
picked in reverse order. -/
def clickDay (st : CalState) (d : ℤ) : CalState :=
  match st.step with
  | .pickStart => ⟨some d, none, .pickEnd⟩
  | .pickEnd =>
    match st.startDate with
    | some s0 => if d < s0 then ⟨some d, some s0, .pickStart⟩ else ⟨some s0, some d, .pickStart⟩
    | none => ⟨none, some d, .pickStart⟩

/-- Local midnight of an epoch day (fixed-length local days; DST ignored). -/
def dayStartMs (d : ℤ) : ℤ := d * 86400000

/-- Local 23:59:59.999 of an epoch day (fixed-length local days; DST ignored). -/
def dayEndMs (d : ℤ) : ℤ := d * 86400000 + 86399999

/-- `getRange()` of `createRangeCalendar`: `null` unless both days are picked,
else midnight of the start day through 23:59:59.999 of the end day. -/
def getRange (st : CalState) : Option MsRange :=
  match st.startDate, st.endDate with
  | some s, some e => some ⟨dayStartMs s, dayEndMs e⟩
  | _, _ => none

/-- Chart-fetch bookkeeping of the mobile dashboard: the token held by
`chartAbortController` (`none` when null), the next fresh token, and every
chart fetch issued so far with its aborted flag. -/
structure MobState where
  nextToken : Nat
  controller : Option Nat
  inFlight : List (Nat × Bool)
deriving DecidableEq, Repr

/-- Initial mobile state: no controller, no chart fetch issued. -/
def mobInit : MobState := ⟨0, none, []⟩

/-- The start of `fetchChartData` (mobile dashboard): it assigns
`chartAbortController = new AbortController()` and issues the chart fetch
under that controller — without aborting any previous controller. -/
def fetchChartDataStart (st : MobState) : MobState :=
  ⟨st.nextToken + 1, some st.nextToken, st.inFlight ++ [(st.nextToken, false)]⟩

/-- `hideChart` (mobile dashboard): aborts the current controller, if any,
and clears it. -/
def hideChart (st : MobState) : MobState :=
  ⟨st.nextToken, none,
   st.inFlight.map (fun tf => if st.controller = some tf.1 then (tf.1, true) else tf)⟩

theorem scanI0_le (s : ℤ) : ∀ l : List ℤ, scanI0 s l ≤ l.length
  | [] => Nat.le_refl 0
  | t :: rest => by
    simp only [scanI0, List.length_cons]
    split
    · exact Nat.succ_le_succ (scanI0_le s rest)
    · exact Nat.zero_le _

theorem scanI0_lt_elem (s : ℤ) :
    ∀ (l : List ℤ) (j : Nat), j < scanI0 s l → l.getD j 0 < s
  | [], j, hj => by simp [scanI0] at hj
  | t :: rest, j, hj => by
    simp only [scanI0] at hj
    split at hj
    · cases j with
      | zero => simpa using ‹t < s›
      | succ j' => simpa using scanI0_lt_elem s rest j' (by omega)
    · omega

theorem scanI0_self (s : ℤ) :
    ∀ l : List ℤ, scanI0 s l < l.length → s ≤ l.getD (scanI0 s l) 0
  | [], h => by simp [scanI0] at h
  | t :: rest, h => by
    simp only [scanI0] at h ⊢
    split
    · next hts =>
      simp only [if_pos hts, List.length_cons] at h
      simpa using scanI0_self s rest (by omega)
    · next hts => simpa using not_lt.mp hts

theorem scanTrailing_le (e : ℤ) : ∀ l : List ℤ, scanTrailing e l ≤ l.length
  | [] => Nat.le_refl 0
  | t :: rest => by
    simp only [scanTrailing, List.length_cons]
    split
    · exact Nat.succ_le_succ (scanTrailing_le e rest)
    · exact Nat.zero_le _

theorem scanTrailing_lt_elem (e : ℤ) :
    ∀ (l : List ℤ) (j : Nat), j < scanTrailing e l → e < l.getD j 0
  | [], j, hj => by simp [scanTrailing] at hj
  | t :: rest, j, hj => by
    simp only [scanTrailing] at hj
    split at hj
    · cases j with
      | zero => simpa using ‹e < t›
      | succ j' => simpa using scanTrailing_lt_elem e rest j' (by omega)
    · omega

theorem scanTrailing_self (e : ℤ) :
    ∀ l : List ℤ, scanTrailing e l < l.length → l.getD (scanTrailing e l) 0 ≤ e
  | [], h => by simp [scanTrailing] at h
  | t :: rest, h => by
    simp only [scanTrailing] at h ⊢
    split
    · next het =>
      simp only [if_pos het, List.length_cons] at h
      simpa using scanTrailing_self e rest (by omega)
    · next het => simpa using not_lt.mp het

theorem getD_reverse (l : List ℤ) (m : Nat) (h : m < l.length) :
    l.reverse.getD m 0 = l.getD (l.length - 1 - m) 0 := by
  rw [List.getD_eq_getElem?_getD, List.getD_eq_getElem?_getD,
    List.getElem?_reverse (by simpa using h)]

theorem sorted_getD_mono {x : List ℤ} (hs : x.Sorted (· ≤ ·)) {i j : Nat}
    (hij : i ≤ j) (hj : j < x.length) : x.getD i 0 ≤ x.getD j 0 := by
  rcases Nat.eq_or_lt_of_le hij with rfl | hlt
  · exact le_refl _
  · have hi : i < x.length := lt_trans hlt hj
    rw [List.getD_eq_getElem _ _ hi, List.getD_eq_getElem _ _ hj]
    exact List.pairwise_iff_get.mp hs ⟨i, hi⟩ ⟨j, hj⟩ hlt

/-- For a sorted time axis, the two scans of `computeStatsLocal` bound the
window: the index interval `[i0, i1]` is exactly the set of indices whose time
lies in `[startSec, endSec]`. -/
theorem window_char (x : List ℤ) (s e : ℤ) (hs : x.Sorted (· ≤ ·))
    (hfound : ¬ ((x.length : ℤ) - 1 - (scanTrailing e x.reverse : ℤ) < (scanI0 s x : ℤ))) :
    scanI0 s x ≤ ((x.length : ℤ) - 1 - (scanTrailing e x.reverse : ℤ)).toNat ∧
    ((x.length : ℤ) - 1 - (scanTrailing e x.reverse : ℤ)).toNat < x.length ∧
    (∀ i, i < x.length →
      ((s ≤ x.getD i 0 ∧ x.getD i 0 ≤ e) ↔
        (scanI0 s x ≤ i ∧ i ≤ ((x.length : ℤ) - 1 - (scanTrailing e x.reverse : ℤ)).toNat))) := by
  set n := x.length with hn
  set i0 := scanI0 s x with hi0
  set k := scanTrailing e x.reverse with hk
  have hkn : k ≤ n := by simpa [hn] using scanTrailing_le e x.reverse
  have h1 : ((n : ℤ) - 1 - (k : ℤ)).toNat = n - 1 - k := by omega
  set i1 := ((n : ℤ) - 1 - (k : ℤ)).toNat with hi1
  have hii : i0 ≤ i1 := by omega
  have hi1n : i1 < n := by omega
  have hkltn : k < n := by omega
  have hx_i1_le : x.getD i1 0 ≤ e := by
    have := scanTrailing_self e x.reverse (by simpa [hn] using hkltn)
    rwa [getD_reverse x k (by omega), show x.length - 1 - k = i1 by omega] at this
  have hx_gt : ∀ j, i1 < j → j < n → e < x.getD j 0 := by
    intro j hji hjn
    have hm : n - 1 - j < k := by omega
    have := scanTrailing_lt_elem e x.reverse (n - 1 - j) (by simpa [hn] using hm)
    rwa [getD_reverse x (n - 1 - j) (by omega),
      show x.length - 1 - (n - 1 - j) = j by omega] at this
  have hi0n : i0 < n := lt_of_le_of_lt hii hi1n
  have hx_i0_ge : s ≤ x.getD i0 0 := scanI0_self s x (by simpa [hn] using hi0n)
  refine ⟨hii, hi1n, ?_⟩
  intro i hin
  constructor
  · rintro ⟨hsx, hxe⟩
    constructor
    · by_contra hlt
      exact absurd (scanI0_lt_elem s x i (by omega)) (by omega)
    · by_contra hgt
      exact absurd (hx_gt i (by omega) hin) (by omega)
  · rintro ⟨h0i, hi1'⟩
    exact ⟨le_trans hx_i0_ge (sorted_getD_mono hs h0i hin),
      le_trans (sorted_getD_mono hs hi1' hi1n) hx_i1_le⟩

theorem slice_eq_map_range' {α : Type} (d : α) :
    ∀ (k i : Nat) (ys : List α), i + k ≤ ys.length →
      (ys.drop i).take k = (List.range' i k).map (fun j => ys.getD j d)
  | 0, i, ys, _ => by simp
  | k + 1, i, ys, h => by
    have hi : i < ys.length := by omega
    rw [List.drop_eq_getElem_cons hi, List.range'_succ, List.map_cons, List.take_succ_cons,
      List.getD_eq_getElem ys d hi]
    exact congrArg (ys[i] :: ·) (slice_eq_map_range' d k (i + 1) ys (by omega))

/-- For a window whose membership is exactly the interval `[i0, i1]`, the
spec-side index filter is the contiguous index range. -/
theorem windowIdx_eq_range' (x : List ℤ) (s e : ℤ) (i0 i1 : Nat)
    (hii : i0 ≤ i1) (h1 : i1 < x.length)
    (hch : ∀ i, i < x.length → ((s ≤ x.getD i 0 ∧ x.getD i 0 ≤ e) ↔ (i0 ≤ i ∧ i ≤ i1))) :
    windowIdx x s e = List.range' i0 (i1 + 1 - i0) := by
  have hsplit2 : List.range' i0 (i1 + 1 - i0) ++ List.range' (i1 + 1) (x.length - (i1 + 1)) =
      List.range' i0 (x.length - i0) := by
    have h := List.range'_append i0 (i1 + 1 - i0) (x.length - (i1 + 1)) 1
    rw [show i0 + 1 * (i1 + 1 - i0) = i1 + 1 by omega,
      show x.length - (i1 + 1) + (i1 + 1 - i0) = x.length - i0 by omega] at h
    exact h
  have hsplit1 : List.range' 0 i0 ++ List.range' i0 (x.length - i0) =
      List.range' 0 x.length := by
    have h := List.range'_append 0 i0 (x.length - i0) 1
    rw [show 0 + 1 * i0 = i0 by omega, show x.length - i0 + i0 = x.length by omega] at h
    exact h
  have hrange : List.range x.length =
      List.range' 0 i0 ++ (List.range' i0 (i1 + 1 - i0) ++ List.range' (i1 + 1) (x.length - (i1 + 1))) := by
    rw [hsplit2, hsplit1, List.range_eq_range']
  unfold windowIdx
  rw [hrange, List.filter_append, List.filter_append]
  have hleft : (List.range' 0 i0).filter
      (fun i => decide (s ≤ x.getD i 0) && decide (x.getD i 0 ≤ e)) = [] := by
    rw [List.filter_eq_nil_iff]
    intro a ha
    rw [List.mem_range'_1] at ha
    have han : a < x.length := by omega
    simp only [Bool.and_eq_true, decide_eq_true_eq, not_and]
    intro h1' h2'
    have := (hch a han).mp ⟨h1', h2'⟩
    omega
  have hmid : (List.range' i0 (i1 + 1 - i0)).filter
      (fun i => decide (s ≤ x.getD i 0) && decide (x.getD i 0 ≤ e)) =
      List.range' i0 (i1 + 1 - i0) := by
    rw [List.filter_eq_self]
    intro a ha
    rw [List.mem_range'_1] at ha
    have han : a < x.length := by omega
    have := (hch a han).mpr ⟨by omega, by omega⟩
    simp only [Bool.and_eq_true, decide_eq_true_eq]
    exact this
  have hright : (List.range' (i1 + 1) (x.length - (i1 + 1))).filter
      (fun i => decide (s ≤ x.getD i 0) && decide (x.getD i 0 ≤ e)) = [] := by
    rw [List.filter_eq_nil_iff]
    intro a ha
    rw [List.mem_range'_1] at ha
    have han : a < x.length := by omega
    simp only [Bool.and_eq_true, decide_eq_true_eq, not_and]
    intro h1' h2'
    have := (hch a han).mp ⟨h1', h2'⟩
    omega
  rw [hleft, hmid, hright, List.nil_append, List.append_nil]

/-- The non-null filter of a value slice equals the spec-side window lookup. -/
theorem slice_filterMap_eq_window (x : List ℤ) (vs : List (Option ℚ)) (s e : ℤ)
    (i0 i1 : Nat) (hii : i0 ≤ i1) (h1 : i1 < x.length) (hlen : vs.length = x.length)
    (hch : ∀ i, i < x.length → ((s ≤ x.getD i 0 ∧ x.getD i 0 ≤ e) ↔ (i0 ≤ i ∧ i ≤ i1))) :
    ((vs.drop i0).take (i1 + 1 - i0)).filterMap id =
      (windowIdx x s e).filterMap (fun i => vs.getD i none) := by
  rw [windowIdx_eq_range' x s e i0 i1 hii h1 hch,
    slice_eq_map_range' (none : Option ℚ) (i1 + 1 - i0) i0 vs (by omega),
    List.filterMap_map]
  rfl

theorem foldl_min_mem : ∀ (t : List ℚ) (h : ℚ), t.foldl min h ∈ h :: t
  | [], h => by simp
  | a :: t, h => by
    have ih := foldl_min_mem t (min h a)
    simp only [List.foldl_cons]
    rcases List.mem_cons.mp ih with heq | hmem
    · rcases min_choice h a with hc | hc <;> rw [heq, hc] <;> simp
    · simp [List.mem_cons.mpr (Or.inr hmem)]

theorem foldl_min_le : ∀ (t : List ℚ) (h : ℚ) (v : ℚ), v ∈ h :: t → t.foldl min h ≤ v
  | [], h, v, hv => by simp_all
  | a :: t, h, v, hv => by
    simp only [List.foldl_cons]
    rcases List.mem_cons.mp hv with rfl | hv'
    · exact le_trans (foldl_min_le t (min v a) (min v a) (by simp)) (min_le_left v a)
    · rcases List.mem_cons.mp hv' with rfl | hv''
      · exact le_trans (foldl_min_le t (min h v) (min h v) (by simp)) (min_le_right h v)
      · exact foldl_min_le t (min h a) v (by simp [hv''])

theorem foldl_max_mem : ∀ (t : List ℚ) (h : ℚ), t.foldl max h ∈ h :: t
  | [], h => by simp
  | a :: t, h => by
    have ih := foldl_max_mem t (max h a)
    simp only [List.foldl_cons]
    rcases List.mem_cons.mp ih with heq | hmem
    · rcases max_choice h a with hc | hc <;> rw [heq, hc] <;> simp
    · simp [List.mem_cons.mpr (Or.inr hmem)]

theorem foldl_max_ge : ∀ (t : List ℚ) (h : ℚ) (v : ℚ), v ∈ h :: t → v ≤ t.foldl max h
  | [], h, v, hv => by simp_all
  | a :: t, h, v, hv => by
    simp only [List.foldl_cons]
    rcases List.mem_cons.mp hv with rfl | hv'
    · exact le_trans (le_max_left v a) (foldl_max_ge t (max v a) (max v a) (by simp))
    · rcases List.mem_cons.mp hv' with rfl | hv''
      · exact le_trans (le_max_right h v) (foldl_max_ge t (max h v) (max h v) (by simp))
      · exact foldl_max_ge t (max h a) v (by simp [hv''])

/-- The trapezoid fold over a mapped index range is the sum of the per-index
terms, one per adjacent pair. -/
theorem trapSum_map_range' (f : Nat → ℤ × Option ℚ) :
    ∀ (m a : Nat), trapSum ((List.range' a m).map f) =
      ((List.range' (a + 1) (m - 1)).map (fun j => trapTerm (f (j - 1)) (f j))).sum
  | 0, a => by simp [trapSum]
  | 1, a => by simp [trapSum]
  | m + 2, a => by
    have htail : (List.range' (a + 1) (m + 1)).map f =
        f (a + 1) :: (List.range' (a + 1 + 1) m).map f := by
      rw [List.range'_succ, List.map_cons]
    have hrec := trapSum_map_range' f (m + 1) (a + 1)
    rw [show m + 1 - 1 = m by omega] at hrec
    simp only [show m + 2 - 1 = m + 1 by omega, List.range'_succ, List.map_cons, List.sum_cons,
      trapSum, Nat.add_sub_cancel]
    rw [← htail, hrec]

theorem listMinQ_spec (l : List ℚ) (m : ℚ) (h : listMinQ l = some m) :
    m ∈ l ∧ ∀ v ∈ l, m ≤ v := by
  cases l with
  | nil => simp [listMinQ] at h
  | cons a t =>
    simp only [listMinQ, Option.some.injEq] at h
    subst h
    exact ⟨foldl_min_mem t a, fun v hv => foldl_min_le t a v hv⟩

theorem listMaxQ_spec (l : List ℚ) (m : ℚ) (h : listMaxQ l = some m) :
    m ∈ l ∧ ∀ v ∈ l, v ≤ m := by
  cases l with
  | nil => simp [listMaxQ] at h
  | cons a t =>
    simp only [listMaxQ, Option.some.injEq] at h
    subst h
    exact ⟨foldl_max_mem t a, fun v hv => foldl_max_ge t a v hv⟩

theorem listAvgQ_spec (l : List ℚ) (h : l ≠ []) :
    listAvgQ l = some (l.sum / (l.length : ℚ)) := by
  cases l with
  | nil => exact absurd rfl h
  | cons a t => rfl

/-- `computeStatsLocal` produces a result exactly when the series is nonempty,
the window spans at least one second, and the two index scans cross; the
result is then the `statsCore` of the scanned window. -/
theorem computeStatsLocal_eq_some_iff {x : List ℤ} {y e : List (Option ℚ)}
    {sMs eMs : ℤ} {r : StatsResult} :
    computeStatsLocal x y e sMs eMs = some r ↔
      (x.length ≠ 0 ∧ Int.fdiv sMs 1000 < Int.fdiv eMs 1000 ∧
       ¬ ((x.length : ℤ) - 1 - (scanTrailing (Int.fdiv eMs 1000) x.reverse : ℤ) <
           (scanI0 (Int.fdiv sMs 1000) x : ℤ)) ∧
       r = statsCore x y e (scanI0 (Int.fdiv sMs 1000) x)
             (((x.length : ℤ) - 1 - (scanTrailing (Int.fdiv eMs 1000) x.reverse : ℤ)).toNat + 1 -
               scanI0 (Int.fdiv sMs 1000) x)) := by
  simp only [computeStatsLocal]
  split_ifs with h1 h2
  · simp only [false_iff, reduceCtorEq]
    rintro ⟨hl, hlt, -, -⟩
    rcases h1 with h1 | h1
    · exact hl h1
    · omega
  · simp only [false_iff, reduceCtorEq]
    rintro ⟨-, -, hnf, -⟩
    exact hnf h2
  · push_neg at h1
    simp only [Option.some.injEq]
    constructor
    · intro hh
      exact ⟨h1.1, h1.2, h2, hh.symm⟩
    · rintro ⟨-, -, -, hh⟩
      exact hh.symm

theorem filterMap_length_of_all_some {α β : Type} (g : α → Option β) :
    ∀ l : List α, (∀ a ∈ l, g a ≠ none) → (l.filterMap g).length = l.length
  | [], _ => rfl
  | a :: l, h => by
    have ha := h a (by simp)
    rcases hga : g a with _ | b
    · exact absurd hga ha
    · rw [List.filterMap_cons_some hga]
      simpa using filterMap_length_of_all_some g l (fun x hx => h x (by simp [hx]))

/-- C1: on the example readings `[{t:0,p:100,e:1.0},{t:3600000,p:200,e:1.2}]`,
`computeStatsLocal` over `[0, 3600000]` yields count 2, average power 150,
min 100, max 200 and `energyUsedKwh = 0.2` via the endpoint delta; in general
(for a sorted series), whenever the first and last non-null cumulative-energy
samples in the window exist, `energyUsedKwh` is exactly their difference (a
meter reset surfaces as a negative delta, uncorrected), and count/avg/min/max
are computed over exactly the non-null power samples inside the window. -/
theorem C1_window_stats :
    (∀ (x : List ℤ) (y e : List (Option ℚ)) (sMs eMs : ℤ) (r : StatsResult),
      x.Sorted (· ≤ ·) → y.length = x.length → e.length = x.length →
      computeStatsLocal x y e sMs eMs = some r →
      (r.count = (windowPowers x y (Int.fdiv sMs 1000) (Int.fdiv eMs 1000)).length ∧
       r.avgP = listAvgQ (windowPowers x y (Int.fdiv sMs 1000) (Int.fdiv eMs 1000)) ∧
       (windowPowers x y (Int.fdiv sMs 1000) (Int.fdiv eMs 1000) ≠ [] →
          r.avgP = some ((windowPowers x y (Int.fdiv sMs 1000) (Int.fdiv eMs 1000)).sum /
            ((windowPowers x y (Int.fdiv sMs 1000) (Int.fdiv eMs 1000)).length : ℚ))) ∧
       (∀ m, r.minP = some m →
          m ∈ windowPowers x y (Int.fdiv sMs 1000) (Int.fdiv eMs 1000) ∧
          ∀ v ∈ windowPowers x y (Int.fdiv sMs 1000) (Int.fdiv eMs 1000), m ≤ v) ∧
       (∀ m, r.maxP = some m →
          m ∈ windowPowers x y (Int.fdiv sMs 1000) (Int.fdiv eMs 1000) ∧
          ∀ v ∈ windowPowers x y (Int.fdiv sMs 1000) (Int.fdiv eMs 1000), v ≤ m) ∧
       (∀ a b, (windowEnergies x e (Int.fdiv sMs 1000) (Int.fdiv eMs 1000)).head? = some a →
          (windowEnergies x e (Int.fdiv sMs 1000) (Int.fdiv eMs 1000)).getLast? = some b →
          r.energyUsed = some (b - a)))) ∧
    computeStatsLocal [0, 3600] [some 100, some 200] [some 1, some (6 / 5)] 0 3600000 =
      some ⟨2, some 150, some 200, some 100, some (1 / 5)⟩ := by
  constructor
  · intro x y e sMs eMs r hs hy he hcs
    obtain ⟨hlen, hlt, hfound, hr⟩ := computeStatsLocal_eq_some_iff.mp hcs
    obtain ⟨hii, h1n, hch⟩ := window_char x (Int.fdiv sMs 1000) (Int.fdiv eMs 1000) hs hfound
    set sSec := Int.fdiv sMs 1000 with hss
    set eSec := Int.fdiv eMs 1000 with hes
    set i0 := scanI0 sSec x with hi0
    set i1 := ((x.length : ℤ) - 1 - (scanTrailing eSec x.reverse : ℤ)).toNat with hi1
    have hcnt : i1 + 1 - i0 = i1 + 1 - i0 := rfl
    have hys : ((y.drop i0).take (i1 + 1 - i0)).filterMap id = windowPowers x y sSec eSec := by
      rw [slice_filterMap_eq_window x y sSec eSec i0 i1 hii h1n hy hch]
      rfl
    have hesl : ((e.drop i0).take (i1 + 1 - i0)).filterMap id = windowEnergies x e sSec eSec := by
      rw [slice_filterMap_eq_window x e sSec eSec i0 i1 hii h1n he hch]
      rfl
    subst hr
    refine ⟨?_, ?_, ?_, ?_, ?_, ?_⟩
    · show (((y.drop i0).take (i1 + 1 - i0)).filterMap id).length = _
      rw [hys]
    · show listAvgQ (((y.drop i0).take (i1 + 1 - i0)).filterMap id) = _
      rw [hys]
    · intro hne
      show listAvgQ (((y.drop i0).take (i1 + 1 - i0)).filterMap id) = _
      rw [hys]
      exact listAvgQ_spec _ hne
    · intro m hm
      have : listMinQ (((y.drop i0).take (i1 + 1 - i0)).filterMap id) = some m := hm
      rw [hys] at this
      exact listMinQ_spec _ m this
    · intro m hm
      have : listMaxQ (((y.drop i0).take (i1 + 1 - i0)).filterMap id) = some m := hm
      rw [hys] at this
      exact listMaxQ_spec _ m this
    · intro a b ha hb
      show (match (((e.drop i0).take (i1 + 1 - i0)).filterMap id).head?,
              (((e.drop i0).take (i1 + 1 - i0)).filterMap id).getLast? with
            | some eS, some eE => some (eE - eS)
            | _, _ => some (trapSum (((x.drop i0).take (i1 + 1 - i0)).zip
                ((y.drop i0).take (i1 + 1 - i0))) / 3600000)) = some (b - a)
      rw [hesl, ha, hb]
  · simp only [computeStatsLocal, statsCore, scanI0, scanTrailing, listAvgQ, listMinQ, listMaxQ]
    norm_num [Int.fdiv, List.filterMap_cons]

/-- C1 (witness): the general window-stats theorem applied to the example
readings, with every hypothesis discharged there. -/
theorem C1_window_stats_witness :
    (⟨2, some 150, some 200, some 100, some (1 / 5)⟩ : StatsResult).count =
      (windowPowers [0, 3600] [some 100, some 200] (Int.fdiv 0 1000)
        (Int.fdiv 3600000 1000)).length := by
  exact (C1_window_stats.1 [0, 3600] [some 100, some 200] [some 1, some (6 / 5)] 0 3600000
    ⟨2, some 150, some 200, some 100, some (1 / 5)⟩
    (by decide) rfl rfl C1_window_stats.2).1

/-- C3 (counterexample): on a window with no non-null energy sample and no
computable trapezoid term (all powers null), `computeStatsLocal` yields
`energyUsedKwh = 0` — the empty trapezoid sum — not `null` as claimed. -/
theorem C3_counterexample :
    computeStatsLocal [0, 10] [none, none] [none, none] 0 10000 =
      some ⟨0, none, none, none, some 0⟩ ∧
    some (0 : ℚ) ≠ (none : Option ℚ) := by
  constructor
  · simp only [computeStatsLocal, statsCore, scanI0, scanTrailing, listAvgQ, listMinQ,
      listMaxQ, trapSum, trapTerm]
    norm_num [Int.fdiv]
  · simp

/-- C3 (amended): when no non-null cumulative-energy sample exists in the
window, `energyUsedKwh` is the trapezoidal integral
`sum((p[i]+p[i-1])/2 * (t[i]-t[i-1])) / 3600000` over the window, skipping
every pair with a null power or a non-advancing timestamp; the fallback always
yields a numeric value — with no computable term the sum is empty and the
result is `0`, never `null`. -/
theorem C3_trapezoid_fallback :
    ∀ (x : List ℤ) (y e : List (Option ℚ)) (sMs eMs : ℤ) (r : StatsResult),
      x.Sorted (· ≤ ·) → y.length = x.length → e.length = x.length →
      computeStatsLocal x y e sMs eMs = some r →
      ((windowEnergies x e (Int.fdiv sMs 1000) (Int.fdiv eMs 1000) = [] →
        ∃ i0 i1 : Nat, i0 ≤ i1 ∧ i1 < x.length ∧
          (∀ i, i < x.length →
            ((Int.fdiv sMs 1000 ≤ x.getD i 0 ∧ x.getD i 0 ≤ Int.fdiv eMs 1000) ↔
              (i0 ≤ i ∧ i ≤ i1))) ∧
          r.energyUsed = some (trapSpecSum x y i0 i1 / 3600000)) ∧
       r.energyUsed ≠ none) := by
  intro x y e sMs eMs r hs hy he hcs
  obtain ⟨hlen, hlt, hfound, hr⟩ := computeStatsLocal_eq_some_iff.mp hcs
  obtain ⟨hii, h1n, hch⟩ := window_char x (Int.fdiv sMs 1000) (Int.fdiv eMs 1000) hs hfound
  set sSec := Int.fdiv sMs 1000 with hss
  set eSec := Int.fdiv eMs 1000 with hesec
  set i0 := scanI0 sSec x with hi0
  set i1 := ((x.length : ℤ) - 1 - (scanTrailing eSec x.reverse : ℤ)).toNat with hi1
  have hesl : ((e.drop i0).take (i1 + 1 - i0)).filterMap id = windowEnergies x e sSec eSec := by
    rw [slice_filterMap_eq_window x e sSec eSec i0 i1 hii h1n he hch]
    rfl
  subst hr
  constructor
  · intro hwe
    refine ⟨i0, i1, hii, h1n, hch, ?_⟩
    have hhead : (((e.drop i0).take (i1 + 1 - i0)).filterMap id).head? = none := by
      rw [hesl, hwe]
      rfl
    show (match (((e.drop i0).take (i1 + 1 - i0)).filterMap id).head?,
            (((e.drop i0).take (i1 + 1 - i0)).filterMap id).getLast? with
          | some eS, some eE => some (eE - eS)
          | _, _ => some (trapSum (((x.drop i0).take (i1 + 1 - i0)).zip
              ((y.drop i0).take (i1 + 1 - i0))) / 3600000)) =
        some (trapSpecSum x y i0 i1 / 3600000)
    rw [hhead]
    have hx : (x.drop i0).take (i1 + 1 - i0) =
        (List.range' i0 (i1 + 1 - i0)).map (fun j => x.getD j 0) :=
      slice_eq_map_range' 0 (i1 + 1 - i0) i0 x (by omega)
    have hyv : (y.drop i0).take (i1 + 1 - i0) =
        (List.range' i0 (i1 + 1 - i0)).map (fun j => y.getD j none) :=
      slice_eq_map_range' none (i1 + 1 - i0) i0 y (by omega)
    rw [hx, hyv, List.zip_map', trapSum_map_range', show i1 + 1 - i0 - 1 = i1 - i0 by omega]
    rfl
  · show (match (((e.drop i0).take (i1 + 1 - i0)).filterMap id).head?,
            (((e.drop i0).take (i1 + 1 - i0)).filterMap id).getLast? with
          | some eS, some eE => some (eE - eS)
          | _, _ => some (trapSum (((x.drop i0).take (i1 + 1 - i0)).zip
              ((y.drop i0).take (i1 + 1 - i0))) / 3600000)) ≠ none
    cases (((e.drop i0).take (i1 + 1 - i0)).filterMap id).head? <;>
      cases (((e.drop i0).take (i1 + 1 - i0)).filterMap id).getLast? <;> simp

/-- C3 (witness): the amended theorem applied to a concrete all-null window. -/
theorem C3_trapezoid_fallback_witness :
    (⟨0, none, none, none, some (0 : ℚ)⟩ : StatsResult).energyUsed ≠ none := by
  have hcs : computeStatsLocal [0, 10] [none, none] [none, none] 0 10000 =
      some ⟨0, none, none, none, some 0⟩ := by
    simp only [computeStatsLocal, statsCore, scanI0, scanTrailing, listAvgQ, listMinQ,
      listMaxQ, trapSum, trapTerm]
    norm_num [Int.fdiv]
  exact (C3_trapezoid_fallback [0, 10] [none, none] [none, none] 0 10000
    ⟨0, none, none, none, some 0⟩ (by decide) rfl rfl hcs).2

/-- C4 (counterexample): on a window containing zero samples the function
returns no result at all (the early `return`), not a `count = 0` record with
null fields. -/
theorem C4_counterexample :
    computeStatsLocal [10] [some 1] [none] 0 5000 = none ∧
    (none : Option StatsResult) ≠ some ⟨0, none, none, none, none⟩ := by
  constructor
  · simp only [computeStatsLocal, scanI0, scanTrailing]
    norm_num [Int.fdiv]
  · simp

/-- C4 (amended): for a sorted series, when the window contains zero samples
`computeStatsLocal` returns `none` — it bails out without updating anything,
leaving the previously displayed statistics in place. -/
theorem C4_empty_window :
    ∀ (x : List ℤ) (y e : List (Option ℚ)) (sMs eMs : ℤ),
      x.Sorted (· ≤ ·) →
      (∀ i, i < x.length →
        ¬ (Int.fdiv sMs 1000 ≤ x.getD i 0 ∧ x.getD i 0 ≤ Int.fdiv eMs 1000)) →
      computeStatsLocal x y e sMs eMs = none := by
  intro x y e sMs eMs hs hemp
  simp only [computeStatsLocal]
  split_ifs with h1 h2
  · rfl
  · rfl
  · exfalso
    obtain ⟨hii, h1n, hch⟩ := window_char x _ _ hs h2
    exact hemp _ h1n ((hch _ h1n).mpr ⟨hii, le_refl _⟩)

/-- C4 (witness): the amended theorem applied to a concrete window lying
beyond the series. -/
theorem C4_empty_window_witness :
    computeStatsLocal [10] [some 1] [none] 20000 30000 = none := by
  exact C4_empty_window [10] [some 1] [none] 20000 30000 (by decide) (by decide)

/-- C2 (counterexample): three all-null-power readings carrying two non-null
but non-adjacent energies satisfy the claim's hypothesis, yet the code keeps
the raw all-null series (the derived list is empty, so `if (derived.length)`
fails) instead of the rebuilt-from-pairs series. -/
theorem C2_counterexample :
    (∀ r ∈ ([⟨0, none, some 1⟩, ⟨5, none, none⟩, ⟨10, none, some 2⟩] : List Reading),
      r.p = none) ∧
    2 ≤ (([⟨0, none, some 1⟩, ⟨5, none, none⟩, ⟨10, none, some 2⟩] : List Reading).filterMap
      Reading.e).length ∧
    fetchReadingsMapped [⟨0, none, some 1⟩, ⟨5, none, none⟩, ⟨10, none, some 2⟩] ≠
      (deriveFromEnergy [⟨0, none, some 1⟩, ⟨5, none, none⟩, ⟨10, none, some 2⟩]).map
        (fun tw => (tw.1, some tw.2)) := by
  refine ⟨by decide, by decide, by decide⟩

/-- C2 (amended): for a nonempty all-null-power series, the power series is
replaced by the energy-derived points exactly when at least one adjacent pair
satisfies the non-null/monotonic-time precondition (otherwise the raw all-null
series is kept); each derived value is the clamped slope
`max(0, Δe * 3.6e9 / Δt)` at the later timestamp, every valid pair yields one
point (so all-valid pairs give length `n - 1`), and derived powers are
never negative. -/
theorem C2_power_derivation :
    ∀ rows : List Reading, rows ≠ [] → (∀ r ∈ rows, r.p = none) →
      ((deriveFromEnergy rows ≠ [] →
          fetchReadingsMapped rows =
            (deriveFromEnergy rows).map (fun tw => (tw.1, some tw.2))) ∧
       (deriveFromEnergy rows = [] → fetchReadingsMapped rows = mapPower rows) ∧
       ((∀ ab ∈ rows.zip rows.tail, ab.1.e ≠ none ∧ ab.2.e ≠ none ∧ ab.1.t < ab.2.t) →
          (deriveFromEnergy rows).length = rows.length - 1) ∧
       (∀ tw ∈ deriveFromEnergy rows, 0 ≤ tw.2)) := by
  intro rows hne hnull
  have hc1 : (mapPower rows).length ≠ 0 := by
    intro h
    exact hne (by simpa [mapPower, List.length_eq_zero] using h)
  have hc2 : (mapPower rows).all (fun pt => pt.2 = none) = true := by
    rw [List.all_eq_true]
    intro pt hpt
    rw [mapPower, List.mem_map] at hpt
    obtain ⟨r, hr, rfl⟩ := hpt
    simpa using hnull r hr
  have key : fetchReadingsMapped rows =
      if (deriveFromEnergy rows).length ≠ 0 then
        (deriveFromEnergy rows).map (fun tw => (tw.1, some tw.2))
      else mapPower rows := by
    unfold fetchReadingsMapped
    rw [if_pos ⟨hc1, hc2⟩]
  refine ⟨?_, ?_, ?_, ?_⟩
  · intro hd
    rw [key, if_pos (by simpa [List.length_eq_zero] using hd)]
  · intro hd
    rw [key, if_neg (by simp [hd])]
  · intro hvalid
    unfold deriveFromEnergy
    rw [filterMap_length_of_all_some _ _ ?_]
    · rw [List.length_zip, List.length_tail]
      omega
    · intro ab hab
      obtain ⟨h1, h2, h3⟩ := hvalid ab hab
      rcases he1 : ab.1.e with _ | ea
      · exact absurd he1 h1
      · rcases he2 : ab.2.e with _ | eb
        · exact absurd he2 h2
        · simp [he1, he2, h3]
  · intro tw htw
    rw [deriveFromEnergy, List.mem_filterMap] at htw
    obtain ⟨ab, hab, hg⟩ := htw
    rcases he1 : ab.1.e with _ | ea <;> rw [he1] at hg
    · simp at hg
    · rcases he2 : ab.2.e with _ | eb <;> rw [he2] at hg
      · simp at hg
      · have hg' : (if ab.1.t < ab.2.t then
            some (ab.2.t, max 0 ((eb - ea) * 3600000000 / ((ab.2.t : ℚ) - (ab.1.t : ℚ))))
          else none) = some tw := hg
        by_cases ht : ab.1.t < ab.2.t
        · rw [if_pos ht] at hg'
          obtain rfl := Option.some.inj hg'
          exact le_max_left 0 _
        · rw [if_neg ht] at hg'
          simp at hg'

/-- C2 (witness): the amended theorem applied to two energy-only readings an
hour apart, whose single valid pair derives one 200 W point. -/
theorem C2_power_derivation_witness :
    (deriveFromEnergy [⟨0, none, some 1⟩, ⟨3600000, none, some (6 / 5)⟩]).length =
      ([⟨0, none, some 1⟩, ⟨3600000, none, some (6 / 5)⟩] : List Reading).length - 1 := by
  exact (C2_power_derivation [⟨0, none, some 1⟩, ⟨3600000, none, some (6 / 5)⟩]
    (by decide) (by decide)).2.2.1 (by decide)

theorem le_clampToSeries (x : List ℤ) (v : ℤ) :
    x.headD 0 * 1000 ≤ clampToSeries x v := le_max_left _ _

theorem clampToSeries_le (x : List ℤ) (v : ℤ)
    (h : x.headD 0 * 1000 ≤ x.getLastD 0 * 1000) :
    clampToSeries x v ≤ x.getLastD 0 * 1000 := max_le h (min_le_right _ _)

theorem clampToSeries_mono (x : List ℤ) {v w : ℤ} (h : v ≤ w) :
    clampToSeries x v ≤ clampToSeries x w :=
  max_le_max (le_refl _) (min_le_min h (le_refl _))

theorem clampToSeries_succ_le (x : List ℤ) (v : ℤ) :
    clampToSeries x (v + 1) ≤ clampToSeries x v + 1 := by
  simp only [clampToSeries]
  omega

/-- Closed form of `applySelectionRange` on a loaded series: a range is
committed exactly when the clamped start is strictly below the series maximum,
and then its end is the clamped end, floored to 1 ms of width and capped at
the maximum. -/
theorem applySelectionRange_char (x : List ℤ) (lo hi : ℤ) (hne : x ≠ [])
    (hAB : x.headD 0 * 1000 ≤ x.getLastD 0 * 1000) (hlh : lo ≤ hi) :
    applySelectionRange x lo hi =
      if clampToSeries x lo < x.getLastD 0 * 1000 then
        some ⟨clampToSeries x lo,
          min (x.getLastD 0 * 1000) (max (clampToSeries x lo + 1) (clampToSeries x hi))⟩
      else none := by
  have hemp : x.isEmpty = false := by
    cases x with
    | nil => exact absurd rfl hne
    | cons a t => rfl
  simp only [applySelectionRange, hemp, Bool.false_eq_true, if_false]
  have h1 := le_clampToSeries x lo
  have h2 := clampToSeries_le x lo hAB
  have h3 := clampToSeries_le x hi hAB
  have h4 := clampToSeries_mono x hlh
  revert h1 h2 h3 h4
  generalize clampToSeries x lo = cl
  generalize clampToSeries x hi = ch
  intro h1 h2 h3 h4
  rcases le_or_lt ch cl with hch | hch
  · rw [if_pos hch]
    rcases lt_or_ge cl (x.getLastD 0 * 1000) with hB | hB
    · rw [if_neg (by omega), if_pos hB]
      simp only [Option.some.injEq, MsRange.mk.injEq, true_and]
      omega
    · rw [if_pos (by omega), if_neg (by omega)]
  · rw [if_neg (not_le.mpr hch), if_neg (not_le.mpr hch), if_pos (by omega)]
    simp only [Option.some.injEq, MsRange.mk.injEq, true_and]
    omega

/-- C5 (counterexample): with data loaded over `[0 s, 10 s]`, a zero-width
drag at 20000 ms (beyond the series) commits nothing at all — both clamped
endpoints collapse onto the series maximum, the 1 ms widening is capped at
`maxMs`, and the function bails out — contradicting the claim that every drag
end commits a clamped (1 ms wide, if degenerate) range. -/
theorem C5_counterexample :
    ([0, 10] : List ℤ) ≠ [] ∧ finalizePointerSelection [0, 10] 20000 20000 = none := by
  refine ⟨by decide, by decide⟩

/-- C5 (amended): for a loaded series, every committed range does satisfy
`endMs > startMs` and lies inside `[seriesMin, seriesMax]`, and the committed
range is the clamp of `[min(start,end), max(start,end)]` with a 1 ms widening
of degenerate ranges — except that when the clamped start already equals the
series maximum there is no room to widen and nothing is committed. -/
theorem C5_selection_commit :
    ∀ (x : List ℤ) (s e : ℤ), x ≠ [] → x.headD 0 ≤ x.getLastD 0 →
      ((∀ r, finalizePointerSelection x s e = some r →
          r.startMs < r.endMs ∧
          x.headD 0 * 1000 ≤ r.startMs ∧ r.endMs ≤ x.getLastD 0 * 1000) ∧
       (clampToSeries x (min s e) = x.getLastD 0 * 1000 →
          finalizePointerSelection x s e = none) ∧
       (s = e → clampToSeries x s < x.getLastD 0 * 1000 →
          finalizePointerSelection x s e =
            some ⟨clampToSeries x s, clampToSeries x s + 1⟩) ∧
       (s ≠ e → clampToSeries x (min s e) < x.getLastD 0 * 1000 →
          finalizePointerSelection x s e =
            some ⟨clampToSeries x (min s e),
              min (x.getLastD 0 * 1000)
                (max (clampToSeries x (min s e) + 1) (clampToSeries x (max s e)))⟩)) := by
  intro x s e hne hmono
  have hAB : x.headD 0 * 1000 ≤ x.getLastD 0 * 1000 := by omega
  have hlh : min s e ≤ (if max s e = min s e then min s e + 1 else max s e) := by
    split_ifs <;> omega
  have hchar : finalizePointerSelection x s e =
      if clampToSeries x (min s e) < x.getLastD 0 * 1000 then
        some ⟨clampToSeries x (min s e),
          min (x.getLastD 0 * 1000) (max (clampToSeries x (min s e) + 1)
            (clampToSeries x (if max s e = min s e then min s e + 1 else max s e)))⟩
      else none := by
    simp only [finalizePointerSelection]
    exact applySelectionRange_char x _ _ hne hAB hlh
  have hc1 := le_clampToSeries x (min s e)
  have hc2 := clampToSeries_le x (min s e) hAB
  refine ⟨?_, ?_, ?_, ?_⟩
  · intro r hr
    obtain ⟨rs, re⟩ := r
    rw [hchar] at hr
    have hc3 := clampToSeries_le x (if max s e = min s e then min s e + 1 else max s e) hAB
    split_ifs at hr with hcl
    all_goals
      first
      | exact Option.noConfusion hr
      | (simp only [Option.some.injEq, MsRange.mk.injEq] at hr
         obtain ⟨e1, e2⟩ := hr
         refine ⟨?_, ?_, ?_⟩ <;> simp only [] <;> omega)
  · intro hcl
    rw [hchar, if_neg (by omega)]
  · intro hse hlt
    subst hse
    simp only [min_self, max_self, eq_self_iff_true, if_true] at hchar hc1 hc2
    rw [hchar, if_pos hlt]
    have hsucc := clampToSeries_succ_le x s
    have hmono2 := clampToSeries_mono x (show s ≤ s + 1 by omega)
    simp only [Option.some.injEq, MsRange.mk.injEq, true_and]
    omega
  · intro hse hlt
    rw [show (if max s e = min s e then min s e + 1 else max s e) = max s e by
      rw [if_neg (by omega)]] at hchar
    rw [hchar, if_pos hlt]

/-- C5 (witness): the amended theorem applied to a zero-width drag at 5000 ms
inside a series spanning `[0 ms, 10000 ms]`: a 1 ms wide range is committed. -/
theorem C5_selection_commit_witness :
    finalizePointerSelection [0, 10] 5000 5000 =
      some ⟨clampToSeries [0, 10] 5000, clampToSeries [0, 10] 5000 + 1⟩ := by
  exact (C5_selection_commit [0, 10] 5000 5000 (by decide) (by decide)).2.2.1 rfl (by decide)

/-- C6 (counterexample): with Period A energy `10` and Period B energy `-8`
(a negative endpoint delta, as a meter reset produces), both baselines are
nonzero yet both percent diffs are negative — `-180 %` and `-225 %` — so
swapping the periods does not invert the sign of `percentDiff`. -/
theorem C6_counterexample :
    (renderDiff ⟨some 10, none⟩ ⟨some (-8), none⟩ ⟨0, 604800000⟩ ⟨0, 604800000⟩ 1).diffPct =
      some (-180) ∧
    (renderDiff ⟨some (-8), none⟩ ⟨some 10, none⟩ ⟨0, 604800000⟩ ⟨0, 604800000⟩ 1).diffPct =
      some (-225) ∧
    (-180 : ℚ) < 0 ∧ (-225 : ℚ) < 0 := by
  refine ⟨?_, ?_, by norm_num, by norm_num⟩ <;>
    · simp only [renderDiff, pctOf, diffOf]
      norm_num

/-- C6 (amended): every metric's absolute diff is `B - A` (null when either
side is missing) and its percent diff is `diff/A*100` gated on a present,
nonzero baseline — so swapping the two periods negates every absolute diff;
the percent diffs swap to `-diff/B*100`, whose sign is inverted whenever the
two underlying values are both strictly positive (with opposite-signed values
the inversion can fail, as the counterexample shows). -/
theorem C6_comparison_diffs :
    (∀ (a b : PeriodStats) (rA rB : MsRange) (c : ℚ),
        (renderDiff a b rA rB c).diffKwh = diffOf a.energy b.energy ∧
        (renderDiff a b rA rB c).diffPct = pctOf a.energy b.energy ∧
        (renderDiff a b rA rB c).diffPowerAvg = diffOf a.avgPower b.avgPower ∧
        (renderDiff a b rA rB c).powerPct = pctOf a.avgPower b.avgPower ∧
        (renderDiff a b rA rB c).dailyAvgPct =
          pctOf (perDayOf a.energy (daysInRange rA)) (perDayOf b.energy (daysInRange rB)) ∧
        (renderDiff a b rA rB c).costPct =
          pctOf (a.energy.map (· * c)) (b.energy.map (· * c)) ∧
        (renderDiff a b rA rB c).costPerDayPct =
          pctOf (perDayOf (a.energy.map (· * c)) (daysInRange rA))
            (perDayOf (b.energy.map (· * c)) (daysInRange rB))) ∧
    (∀ u v : ℚ, u ≠ 0 → pctOf (some u) (some v) = some ((v - u) / u * 100)) ∧
    (∀ v : Option ℚ, pctOf none v = none ∧ pctOf (some 0) v = none) ∧
    (∀ x y : Option ℚ, diffOf y x = (diffOf x y).map (fun z => -z)) ∧
    (∀ (a b : PeriodStats) (rA rB : MsRange) (c : ℚ),
        (renderDiff b a rB rA c).diffKwh =
          ((renderDiff a b rA rB c).diffKwh).map (fun z => -z) ∧
        (renderDiff b a rB rA c).diffDailyAvg =
          ((renderDiff a b rA rB c).diffDailyAvg).map (fun z => -z) ∧
        (renderDiff b a rB rA c).diffPowerAvg =
          ((renderDiff a b rA rB c).diffPowerAvg).map (fun z => -z) ∧
        (renderDiff b a rB rA c).diffCost =
          ((renderDiff a b rA rB c).diffCost).map (fun z => -z) ∧
        (renderDiff b a rB rA c).diffCostPerDay =
          ((renderDiff a b rA rB c).diffCostPerDay).map (fun z => -z)) ∧
    (∀ u v p q : ℚ, 0 < u → 0 < v →
        pctOf (some u) (some v) = some p → pctOf (some v) (some u) = some q →
        ((0 < p ↔ q < 0) ∧ (p < 0 ↔ 0 < q) ∧ (p = 0 ↔ q = 0))) := by
  have hneg : ∀ x y : Option ℚ, diffOf y x = (diffOf x y).map (fun z => -z) := by
    intro x y
    cases x <;> cases y <;> simp [diffOf]
  refine ⟨?_, ?_, ?_, hneg, ?_, ?_⟩
  · exact fun a b rA rB c => ⟨rfl, rfl, rfl, rfl, rfl, rfl, rfl⟩
  · intro u v hu
    simp [pctOf, hu]
  · intro v
    simp [pctOf]
  · intro a b rA rB c
    refine ⟨hneg _ _, hneg _ _, hneg _ _, ?_, hneg _ _⟩
    show (diffOf b.energy a.energy).map (· * c) =
      ((diffOf a.energy b.energy).map (· * c)).map (fun z => -z)
    rw [hneg a.energy b.energy]
    cases diffOf a.energy b.energy <;> simp
  · intro u v p q hu hv hp hq
    have hp2 : p = (v - u) * (100 / u) := by
      simp only [pctOf, hu.ne', if_false, Option.some.injEq, if_neg] at hp
      rw [← hp]
      ring
    have hq2 : q = (u - v) * (100 / v) := by
      simp only [pctOf, hv.ne', if_false, Option.some.injEq, if_neg] at hq
      rw [← hq]
      ring
    have h100u : (0 : ℚ) < 100 / u := by positivity
    have h100v : (0 : ℚ) < 100 / v := by positivity
    rcases lt_trichotomy (v - u) 0 with hvu | hvu | hvu
    · have hp3 : p < 0 := by rw [hp2]; exact mul_neg_of_neg_of_pos hvu h100u
      have hq3 : 0 < q := by rw [hq2]; exact mul_pos (by linarith) h100v
      exact ⟨⟨fun h => by linarith, fun h => by linarith⟩,
             ⟨fun _ => hq3, fun _ => hp3⟩,
             ⟨fun h => by linarith, fun h => by linarith⟩⟩
    · have hp3 : p = 0 := by rw [hp2, hvu, zero_mul]
      have hq3 : q = 0 := by rw [hq2, show u - v = 0 by linarith, zero_mul]
      exact ⟨⟨fun h => by linarith, fun h => by linarith⟩,
             ⟨fun h => by linarith, fun h => by linarith⟩,
             ⟨fun _ => hq3, fun _ => hp3⟩⟩
    · have hp3 : 0 < p := by rw [hp2]; exact mul_pos hvu h100u
      have hq3 : q < 0 := by rw [hq2]; exact mul_neg_of_neg_of_pos (by linarith) h100v
      exact ⟨⟨fun _ => hq3, fun _ => hp3⟩,
             ⟨fun h => by linarith, fun h => by linarith⟩,
             ⟨fun h => by linarith, fun h => by linarith⟩⟩

/-- C6 (witness): the amended theorem's percent formula applied at baseline 10
and comparison value -8. -/
theorem C6_comparison_diffs_witness :
    pctOf (some (10 : ℚ)) (some (-8)) = some ((-8 - 10) / 10 * 100) := by
  exact C6_comparison_diffs.2.1 10 (-8) (by norm_num)

/-- C7: evidence of the missing cancellation. Starting from the initial mobile
state, a first `fetchChartData` leaves one un-aborted chart fetch in flight;
a second `fetchChartData` (days change or re-opened chart while the first is
still pending) installs a fresh `AbortController` without calling `abort()` on
the previous one, so the first fetch is still in flight and un-aborted —
only `hideChart` ever aborts the current controller. -/
theorem C7_no_abort_on_refetch :
    (fetchChartDataStart (fetchChartDataStart mobInit)).inFlight =
      [(0, false), (1, false)] ∧
    (fetchChartDataStart mobInit).inFlight = [(0, false)] ∧
    (hideChart (fetchChartDataStart mobInit)).inFlight = [(0, true)] := by
  refine ⟨rfl, rfl, rfl⟩

/-- C8 (counterexample): at 1000 ms past local midnight (so `now` is well
inside the day), a range ending beyond today is trimmed to 86399999 —
the end of the current day — which exceeds `now = 1000`, contradicting the
claim that the trimmed end never exceeds the current moment. -/
theorem C8_counterexample :
    (trimRangeToToday 86400000 ⟨0, 99999999⟩).endMs = 86399999 ∧
    (1000 : ℤ) < 86400000 ∧
    ¬ ((trimRangeToToday 86400000 ⟨0, 99999999⟩).endMs ≤ 1000) := by
  refine ⟨rfl, by norm_num, by decide⟩

/-- C8 (amended): the trimmed range's end never exceeds the *end of the
current local day* (`startOfTomorrow - 1`, i.e. 23:59:59.999 today — not the
current moment, which it may exceed by up to a day), never exceeds the
requested end, and the start is left untouched. -/
theorem C8_trim_to_end_of_today :
    ∀ (startOfTomorrowMs : ℤ) (r : MsRange),
      (trimRangeToToday startOfTomorrowMs r).endMs ≤ getEndOfTodayMs startOfTomorrowMs ∧
      (trimRangeToToday startOfTomorrowMs r).endMs ≤ r.endMs ∧
      (trimRangeToToday startOfTomorrowMs r).startMs = r.startMs := by
  intro sot r
  exact ⟨min_le_right _ _, min_le_left _ _, rfl⟩

/-- C9 (counterexample): a stored `"0"` is present and parsable yet the
`parseFloat(v) || costPerKwh` idiom discards it (0 is falsy) and returns the
default 0.3102; a stored `"-5"` is returned as −5, so the loaded cost is not
always ≥ 0. -/
theorem C9_counterexample :
    loadCostFromStorage (some (some 0)) none = defaultCostPerKwh ∧
    defaultCostPerKwh ≠ 0 ∧
    loadCostFromStorage (some (some (-5))) none = -5 ∧
    ¬ ((-5 : ℚ) ≥ 0) := by
  refine ⟨by norm_num [loadCostFromStorage, jsOrDefault],
    by norm_num [defaultCostPerKwh],
    by norm_num [loadCostFromStorage, jsOrDefault],
    by norm_num⟩

/-- C9 (amended): the stored value is returned only when it parses to a
*nonzero* float (which may be negative, so ≥ 0 is not guaranteed); a stored
`0` or an unparsable value falls back to the default constant; when the key is
absent the cost input element's value is parsed the same way before falling
back to the default. -/
theorem C9_load_cost :
    (∀ (x : ℚ) (iv : Option (Option ℚ)), x ≠ 0 →
        loadCostFromStorage (some (some x)) iv = x) ∧
    (∀ iv : Option (Option ℚ),
        loadCostFromStorage (some (some 0)) iv = defaultCostPerKwh ∧
        loadCostFromStorage (some none) iv = defaultCostPerKwh) ∧
    loadCostFromStorage none none = defaultCostPerKwh ∧
    (∀ x : ℚ, x ≠ 0 → loadCostFromStorage none (some (some x)) = x) ∧
    loadCostFromStorage none (some (some 0)) = defaultCostPerKwh ∧
    loadCostFromStorage none (some none) = defaultCostPerKwh := by
  refine ⟨?_, ?_, rfl, ?_, ?_, rfl⟩
  · intro x iv hx
    simp [loadCostFromStorage, jsOrDefault, hx]
  · intro iv
    exact ⟨by simp [loadCostFromStorage, jsOrDefault], rfl⟩
  · intro x hx
    simp [loadCostFromStorage, jsOrDefault, hx]
  · simp [loadCostFromStorage, jsOrDefault]

/-- C9 (witness): the amended theorem applied to a stored value parsing
to 2.5. -/
theorem C9_load_cost_witness :
    loadCostFromStorage (some (some (5 / 2))) none = 5 / 2 := by
  exact C9_load_cost.1 (5 / 2) none (by norm_num)

/-- C10: after picking two days in a range calendar (a click in the
`step = "start"` state followed by a second click), `getRange()` returns
local midnight of the earlier picked day through 23:59:59.999 of the later
one — reverse-order picks are swapped by the click handler — so the range
always satisfies `endMs > startMs`; with fewer than two days picked it
returns `null`.  Days are modelled as epoch-day indices with fixed-length
local days. -/
theorem C10_calendar_range :
    (∀ (st : CalState) (d1 d2 : ℤ), st.step = PickStep.pickStart →
        getRange (clickDay (clickDay st d1) d2) =
          some ⟨dayStartMs (min d1 d2), dayEndMs (max d1 d2)⟩ ∧
        dayStartMs (min d1 d2) < dayEndMs (max d1 d2)) ∧
    (∀ st : CalState, (st.startDate = none ∨ st.endDate = none) → getRange st = none) := by
  constructor
  · intro st d1 d2 hstep
    have h1 : clickDay st d1 = ⟨some d1, none, PickStep.pickEnd⟩ := by
      simp [clickDay, hstep]
    constructor
    · rw [h1]
      simp only [clickDay]
      split_ifs with h
      · simp [getRange, min_eq_right h.le, max_eq_left h.le]
      · simp [getRange, min_eq_left (not_lt.mp h), max_eq_right (not_lt.mp h)]
    · have hmm : min d1 d2 ≤ max d1 d2 := min_le_max
      simp only [dayStartMs, dayEndMs]
      omega
  · intro st h
    rcases hs : st.startDate with _ | s
    · simp [getRange, hs]
    · rcases he : st.endDate with _ | e
      · simp [getRange, hs, he]
      · rcases h with h | h
        · exact absurd hs (by simp [h])
        · exact absurd he (by simp [h])

/-- C10 (witness): the theorem applied to picking day 20 first and day 17
second — the committed range runs from midnight of day 17 to the end of
day 20. -/
theorem C10_calendar_range_witness :
    getRange (clickDay (clickDay ⟨none, none, PickStep.pickStart⟩ 20) 17) =
      some ⟨dayStartMs (min 20 17), dayEndMs (max 20 17)⟩ := by
  exact (C10_calendar_range.1 ⟨none, none, PickStep.pickStart⟩ 20 17 rfl).1

end EnergyMonitor
